import Mathlib

/-!
Shallow embedding of the simulation core of `rust-rogue-tutorial`
(`src/main.rs`), a turn-based dungeon crawler: entities with optional
Fighter / AI / Item capabilities, damage and death resolution, the
confusion state machine, inventory and item effects, movement and
blocking queries, and the closest-target search.

Modelling conventions:
* Rust `i32` fields become `Int` (no arithmetic in the program comes close
  to overflow, every quantity stays far below 2^31).
* Vec indexing becomes `List.getD` with a default element; the source only
  indexes in bounds, and theorems carry in-bounds hypotheses where they
  matter.
* The tcod presentation layer (rendering, FOV, input, menus, RNG) is the
  external collaborator of the spec: the FOV query is threaded as a
  predicate `Int → Int → Bool`, random draws and menu selections become
  explicit parameters.
* `GameObject::distance_to` returns the `f32` square root of the integer
  squared distance.  Every comparison the program performs is between two
  such square roots or between a square root and the integer bound
  `max_range + 1`; squaring is strictly monotone on nonnegative reals and
  the `f32` rounding of these magnitudes (≤ √12000) never collapses two
  distinct integer radicands, so the embedding works with the integer
  squared distance and squared bounds, preserving every comparison exactly.
-/

namespace RustRogue

/-- The tcod named colors the game uses; their RGB values never influence
the simulation logic, so they are embedded as an enumeration. -/
inductive Color where
  | white
  | red
  | green
  | orange
  | darkRed
  | lightBlue
  | lightViolet
  | violet
  | lightYellow
  | desaturatedGreen
  | darkerGreen
deriving DecidableEq, Repr

/-- `enum DeathCallback { Player, Monster }` -/
inductive DeathCallback where
  | player
  | monster
deriving DecidableEq, Repr

/-- `struct Fighter` -/
structure Fighter where
  max_hp : Int
  hp : Int
  defense : Int
  power : Int
  on_death : DeathCallback
deriving DecidableEq, Repr

/-- `enum Ai { Basic, Confused { previous_ai: Box<Ai>, num_turns: i32 } }` -/
inductive Ai where
  | basic
  | confused (previous_ai : Ai) (num_turns : Int)
deriving DecidableEq, Repr

/-- `enum Item { Heal, ScrollOfLightning, ScrollOfConfusion }` -/
inductive Item where
  | heal
  | scrollOfLightning
  | scrollOfConfusion
deriving DecidableEq, Repr

/-- `struct GameObject` -/
structure GameObject where
  x : Int
  y : Int
  char : Char
  color : Color
  name : String
  blocks : Bool
  is_alive : Bool
  fighter : Option Fighter
  ai : Option Ai
  item : Option Item
deriving DecidableEq, Repr

instance : Inhabited GameObject :=
  ⟨{ x := 0, y := 0, char := '?', color := Color.white, name := "", blocks := false,
     is_alive := false, fighter := none, ai := none, item := none }⟩

/-- `struct Tile` -/
structure Tile where
  blocked : Bool
  explored : Bool
  block_sight : Bool
deriving DecidableEq, Repr

/-- `Tile::empty()` -/
def Tile.empty : Tile := { blocked := false, explored := false, block_sight := false }

/-- `Tile::wall()` -/
def Tile.wall : Tile := { blocked := true, explored := false, block_sight := true }

/-- `type Map = Vec<Vec<Tile>>` -/
abbrev GameMap := List (List Tile)

/-- `struct Game` (messages are the `Messages` vector of `(text, color)` pairs). -/
structure Game where
  map : GameMap
  messages : List (String × Color)
  inventory : List GameObject
deriving DecidableEq, Repr

/-- `enum PlayerAction` -/
inductive PlayerAction where
  | tookTurn
  | didntTakeTurn
  | exitGame
deriving DecidableEq, Repr

/-- `enum UseResult` -/
inductive UseResult where
  | usedUp
  | cancelled
deriving DecidableEq, Repr

/-- `Messages::add` (push one `(text, color)` pair). -/
def addMsg (game : Game) (text : String) (color : Color) : Game :=
  { game with messages := game.messages ++ [(text, color)] }

-- Constants from the source.
def PLAYER : Nat := 0
def HEAL_AMOUNT : Int := 4
def LIGHTNING_RANGE : Int := 5
def LIGHTNING_DAMAGE : Int := 40
def CONFUSION_RANGE : Int := 5
def CONFUSE_TURN_COUNT : Int := 10

/-- `fn player_death`: message, then re-glyph and recolor the player.
The fighter capability is NOT removed. -/
def player_death (player : GameObject) (game : Game) : GameObject × Game :=
  ({ player with char := '%', color := Color.darkRed },
   addMsg game "You died!" Color.red)

/-- `fn monster_death`: message (with the pre-death name), re-glyph,
recolor, clear `blocks`, `fighter` and `ai`, rename to remains. -/
def monster_death (monster : GameObject) (game : Game) : GameObject × Game :=
  ({ monster with
      char := '%', color := Color.darkRed, blocks := false,
      fighter := none, ai := none, name := "remains of " ++ monster.name },
   addMsg game (monster.name ++ " is dead !") Color.orange)

/-- `DeathCallback::callback` -/
def DeathCallback.callback : DeathCallback → GameObject → Game → GameObject × Game
  | DeathCallback.player, o, g => player_death o g
  | DeathCallback.monster, o, g => monster_death o g

/-- `GameObject::take_damage`: subtract only when `damage > 0`; then, if a
fighter is (still) present with `hp <= 0`, clear `is_alive` and invoke the
death callback.  There is no guard on `is_alive` or on the hp transition:
the callback fires on every call that ends with a fighter at `hp <= 0`. -/
def GameObject.take_damage (self : GameObject) (damage : Int) (game : Game) :
    GameObject × Game :=
  let self :=
    match self.fighter with
    | some f =>
        if damage > 0 then { self with fighter := some { f with hp := f.hp - damage } }
        else self
    | none => self
  match self.fighter with
  | some f =>
      if f.hp ≤ 0 then
        DeathCallback.callback f.on_death { self with is_alive := false } game
      else (self, game)
  | none => (self, game)

/-- `GameObject::attack`: damage = attacker power − defender defense
(`map_or(0, ..)` on the optional fighters); if positive, log the attack
message and delegate to `take_damage`, else log the distinct
"no effect" message and leave the target untouched.  The attacker itself
is never mutated, so the embedding returns the updated target and game. -/
def GameObject.attack (self : GameObject) (target : GameObject) (game : Game) :
    GameObject × Game :=
  let damage := (self.fighter.map Fighter.power).getD 0
      - (target.fighter.map Fighter.defense).getD 0
  if damage > 0 then
    GameObject.take_damage target damage
      (addMsg game
        (self.name ++ " attacks " ++ target.name ++ " for " ++ toString damage ++ " hp.")
        Color.white)
  else
    (target,
     addMsg game (self.name ++ " attacks " ++ target.name ++ ", but it has no effect!")
       Color.white)

/-- `GameObject::heal`: add `amount` to hp, clamping at `max_hp`. -/
def GameObject.heal (self : GameObject) (amount : Int) : GameObject :=
  match self.fighter with
  | some f =>
      let hp := f.hp + amount
      { self with fighter := some { f with hp := if hp > f.max_hp then f.max_hp else hp } }
  | none => self

/-- The squared Euclidean distance between two game objects
(`dx.pow(2) + dy.pow(2)`, i.e. `dx·dx + dy·dy`).
`GameObject::distance_to` is its `f32` square root (see the header note on
why comparisons of squared distances embed the source's comparisons
exactly). -/
def distance_sq (a b : GameObject) : Int :=
  (b.x - a.x) * (b.x - a.x) + (b.y - a.y) * (b.y - a.y)

/-- The AI-value transition performed by one `ai_take_turn` step:
`ai_basic` always returns `Ai::Basic`, and `ai_confused` returns
`Confused { previous_ai, num_turns - 1 }` while `num_turns >= 0` and
dereferences `previous_ai` once it is negative.  (The positional and
message side effects of the step are modelled separately in
`ai_confused`.) -/
def step_ai : Ai → Ai
  | Ai.basic => Ai.basic
  | Ai.confused prev n => if n ≥ 0 then Ai.confused prev (n - 1) else prev

-- Concrete objects used by the C1 theorems.

/-- The player's `Fighter` as built in `main`. -/
def playerFighter : Fighter :=
  { max_hp := 30, hp := 30, defense := 2, power := 5, on_death := DeathCallback.player }

/-- A player game object that has already died: hp is 0, `is_alive` is
false, the death callback has already re-glyphed it — but the fighter
slot is still occupied (player_death does not clear it). -/
def deadPlayerC1 : GameObject :=
  { x := 0, y := 0, char := '%', color := Color.darkRed, name := "player", blocks := true,
    is_alive := false, fighter := some { playerFighter with hp := 0 },
    ai := none, item := none }

/-- An orc one hit from death, as spawned by `place_game_objects`. -/
def orcFighterC1 : Fighter :=
  { max_hp := 10, hp := 1, defense := 0, power := 3, on_death := DeathCallback.monster }

def orcC1 : GameObject :=
  { x := 3, y := 4, char := 'o', color := Color.desaturatedGreen, name := "orc",
    blocks := true, is_alive := true, fighter := some orcFighterC1,
    ai := some Ai.basic, item := none }

/-- A game value with no map, no messages and an empty inventory. -/
def emptyGame : Game := { map := [], messages := [], inventory := [] }

/-- C1 counterexample: the claim says a `take_damage` call on an entity
whose hp is already ≤ 0 (here with amount 0) never invokes `on_death`
again.  On a dead player — hp 0, fighter still present, death already
resolved — `take_damage 0` invokes `player_death` once more: the only way
the "You died!" message can be produced.  So `on_death` is not guarded by
the hp-crossing-zero transition. -/
theorem C1_counterexample :
    (deadPlayerC1.take_damage 0 emptyGame).2.messages = [("You died!", Color.red)] ∧
    deadPlayerC1.fighter = some { playerFighter with hp := 0 } ∧
    ¬ (0 : Int) < 0 := by
  refine ⟨rfl, rfl, by decide⟩

/-- C1 (amended): `on_death` fires on every `take_damage` call that ends
with a fighter present at hp ≤ 0.  `monster_death` clears the fighter
capability and a fighterless object is inert under `take_damage`, so a
monster's death behavior runs at most once; the player's death behavior,
in contrast, runs again on any further `take_damage` call while hp ≤ 0,
including calls with amount ≤ 0. -/
theorem C1_amended (obj : GameObject) (f : Fighter) (dmg : Int) (g : Game)
    (hf : obj.fighter = some f) :
    (f.on_death = DeathCallback.monster → (if dmg > 0 then f.hp - dmg else f.hp) ≤ 0 →
      (obj.take_damage dmg g).1.fighter = none) ∧
    (f.on_death = DeathCallback.player → f.hp ≤ 0 → dmg ≤ 0 →
      (obj.take_damage dmg g).2.messages = g.messages ++ [("You died!", Color.red)]) ∧
    (∀ (o : GameObject) (d : Int) (g2 : Game), o.fighter = none →
      o.take_damage d g2 = (o, g2)) := by
  refine ⟨?_, ?_, ?_⟩
  · intro hmon hhp
    by_cases hdmg : dmg > 0
    · simp only [if_pos hdmg] at hhp
      simp [GameObject.take_damage, hf, if_pos hdmg,
        DeathCallback.callback, hmon, monster_death,
        show f.hp ≤ dmg from by omega]
    · simp only [if_neg hdmg] at hhp
      simp [GameObject.take_damage, hf, if_neg hdmg, if_pos hhp,
        DeathCallback.callback, hmon, monster_death]
  · intro hpl hhp hdmg
    have hdmg' : ¬ dmg > 0 := by omega
    simp [GameObject.take_damage, hf, if_neg hdmg', if_pos hhp,
      DeathCallback.callback, hpl, player_death, addMsg]
  · intro o d g2 ho
    simp [GameObject.take_damage, ho]

/-- C1 witness: a monster killed by a 5-damage hit loses its fighter
capability in the same call that fired its death behavior, so no further
call can fire it again. -/
theorem C1_witness : (orcC1.take_damage 5 emptyGame).1.fighter = none :=
  (C1_amended orcC1 orcFighterC1 5 emptyGame rfl).1 rfl (by decide)

/-- C2 counterexample: for `Confused { previous: Basic, remaining_turns: 0 }`
the claim predicts that `0 + 1 = 1` AI step restores `Basic`; in fact one
step yields `Confused { previous: Basic, remaining_turns: -1 }`, which is
not the pre-confusion AI. -/
theorem C2_counterexample :
    step_ai^[0 + 1] (Ai.confused Ai.basic 0) = Ai.confused Ai.basic (-1) ∧
    Ai.confused Ai.basic (-1) ≠ Ai.basic := by
  refine ⟨rfl, by decide⟩

/-- C2 (amended): for every AI value `previous` and every
`remaining_turns = n ≥ 0`, stepping the AI phase exactly
`remaining_turns + 2` times (not `+ 1`) restores the pre-confusion AI
value `previous` and removes the `Confused` wrapper: the counter is
decremented on each of the first `n + 1` steps (while it is ≥ 0), and the
step that sees it negative returns `previous`. -/
theorem C2_amended (prev : Ai) (n : Nat) :
    step_ai^[n + 2] (Ai.confused prev (n : Int)) = prev := by
  induction n with
  | zero => rfl
  | succ k ih =>
      have hstep : step_ai (Ai.confused prev ((k + 1 : Nat) : Int)) =
          Ai.confused prev ((k : Nat) : Int) := by
        have hge : ((k + 1 : Nat) : Int) ≥ 0 := by positivity
        simp only [step_ai, if_pos hge]
        norm_num
      have : (k + 1) + 2 = (k + 2) + 1 := by omega
      rw [this, Function.iterate_succ_apply, hstep, ih]

-- Small `List.getD` helper lemmas shared by several proofs.

lemma getD_dropLast_of_lt {α : Type} (l : List α) (d : α) (j : Nat)
    (h : j < l.length - 1) : l.dropLast.getD j d = l.getD j d := by
  have h1 : j < l.dropLast.length := by
    rw [List.length_dropLast]; omega
  have h2 : j < l.length := by omega
  rw [List.getD_eq_getElem l d h2, List.getD_eq_getElem l.dropLast d h1,
    List.getElem_dropLast]

lemma getD_set_ne {α : Type} (l : List α) (d a : α) (i j : Nat) (hij : i ≠ j) :
    (l.set i a).getD j d = l.getD j d := by
  rw [List.getD_eq_getElem?_getD, List.getD_eq_getElem?_getD, List.getElem?_set,
    if_neg hij]

lemma getD_set_self {α : Type} (l : List α) (d a : α) (i : Nat) (h : i < l.length) :
    (l.set i a).getD i d = a := by
  rw [List.getD_eq_getElem?_getD, List.getElem?_set]
  simp [h]

lemma getD_take_of_lt {α : Type} (l : List α) (d : α) (j m : Nat) (h : j < m) :
    (l.take m).getD j d = l.getD j d := by
  rw [List.getD_eq_getElem?_getD, List.getD_eq_getElem?_getD, List.getElem?_take,
    if_pos h]

lemma getD_drop_zero {α : Type} (l : List α) (d : α) (m : Nat) :
    (l.drop m).getD 0 d = l.getD m d := by
  rw [List.getD_eq_getElem?_getD, List.getD_eq_getElem?_getD, List.getElem?_drop]
  norm_num

lemma headD_eq_getD_zero {α : Type} [Inhabited α] (l : List α) :
    l.headD default = l.getD 0 default := by
  cases l <;> rfl

/-- Tile lookup `map[x as usize][y as usize]`.  The source only indexes in
bounds; an out-of-range lookup is modeled as a wall (blocked). -/
def tileAt (map : GameMap) (x y : Int) : Tile :=
  (map.getD x.toNat []).getD y.toNat Tile.wall

/-- `fn is_blocked`: the tile is blocked, or some `blocks = true` game
object occupies the position. -/
def is_blocked (x y : Int) (map : GameMap) (game_objects : List GameObject) : Bool :=
  (tileAt map x y).blocked ||
    game_objects.any (fun g => g.blocks && (g.x == x && g.y == y))

/-- `fn move_game_object_by`: apply the delta only when the destination is
not blocked; otherwise the move is silently dropped. -/
def move_game_object_by (id : Nat) (dx dy : Int) (map : GameMap)
    (game_objects : List GameObject) : List GameObject :=
  let o := game_objects.getD id default
  if !(is_blocked (o.x + dx) (o.y + dy) map game_objects) then
    game_objects.set id { o with x := o.x + dx, y := o.y + dy }
  else game_objects

/-- C10: `move_game_object_by` leaves the entity in place when the
destination is blocked (blocked tile, or any `blocks = true` entity there,
per `is_blocked`), with no error and no partial move; when it does move,
the destination tile is not blocked and no blocking entity (the scan
includes every entity) occupies the destination. -/
theorem C10_move_by (id : Nat) (dx dy : Int) (map : GameMap)
    (objs : List GameObject) :
    (is_blocked ((objs.getD id default).x + dx) ((objs.getD id default).y + dy)
        map objs = true →
      move_game_object_by id dx dy map objs = objs) ∧
    (is_blocked ((objs.getD id default).x + dx) ((objs.getD id default).y + dy)
        map objs = false →
      move_game_object_by id dx dy map objs =
          objs.set id { objs.getD id default with
                        x := (objs.getD id default).x + dx
                        y := (objs.getD id default).y + dy } ∧
        (tileAt map ((objs.getD id default).x + dx)
            ((objs.getD id default).y + dy)).blocked = false ∧
        ∀ j, j < objs.length → (objs.getD j default).blocks = true →
          ¬((objs.getD j default).x = (objs.getD id default).x + dx ∧
            (objs.getD j default).y = (objs.getD id default).y + dy)) := by
  constructor
  · intro hb
    simp only [move_game_object_by]
    rw [hb]
    rfl
  · intro hb
    refine ⟨by simp only [move_game_object_by]; rw [hb]; rfl, ?_, ?_⟩
    · have := (Bool.or_eq_false_iff.mp hb).1
      exact this
    · intro j hj hblocks hpos
      have hany := (Bool.or_eq_false_iff.mp hb).2
      have hmem : objs.getD j default ∈ objs := by
        rw [List.getD_eq_getElem objs default hj]
        exact List.getElem_mem hj
      have := List.any_eq_false.mp hany _ hmem
      simp only [Bool.and_eq_true, beq_iff_eq, not_and] at this
      exact this hblocks hpos.1 hpos.2

-- Concrete data for the C10 witness: a 2×2 all-floor map and a player.

def mapC10 : GameMap := [[Tile.empty, Tile.empty], [Tile.empty, Tile.empty]]

/-- The player game object as built in `main` (position 0,0 after
placement). -/
def basePlayer : GameObject :=
  { x := 0, y := 0, char := '@', color := Color.white, name := "player", blocks := true,
    is_alive := true, fighter := some playerFighter, ai := none, item := none }

/-- C10 witness: on an all-floor map with no other entity, a one-step move
to the right is applied. -/
theorem C10_witness :
    move_game_object_by 0 1 0 mapC10 [basePlayer] =
      [basePlayer].set 0 { basePlayer with x := 1, y := 0 } := by
  have h := ((C10_move_by 0 1 0 mapC10 [basePlayer]).2 (by decide)).1
  exact h

/-- `Vec::swap_remove(i)`: return the element at `i`; the vector gets the
last element moved into slot `i` and loses its last slot. -/
def swap_remove {α : Type} [Inhabited α] (l : List α) (i : Nat) : α × List α :=
  (l.getD i default, (l.set i (l.getD (l.length - 1) default)).dropLast)

/-- `fn pick_item_up`: refuse (message only) when the inventory already
holds 9 items; otherwise `swap_remove` the entity from the world sequence,
log the pickup and append it to the inventory. -/
def pick_item_up (object_id : Nat) (game : Game) (game_objects : List GameObject) :
    Game × List GameObject :=
  if game.inventory.length ≥ 9 then
    (addMsg game
      ("Cannot pickup " ++ (game_objects.getD object_id default).name ++
        ", inventory is full!") Color.red,
     game_objects)
  else
    let r := swap_remove game_objects object_id
    let g := addMsg game ("You picked up " ++ r.1.name) Color.green
    ({ g with inventory := g.inventory ++ [r.1] }, r.2)

/-- C8: a pickup with the inventory at capacity 9 fails atomically — a
message is logged, the world sequence is unchanged (the item entity stays
in it) and the inventory is unchanged (still length 9); with fewer than 9
items the picked entity is appended to the inventory and the world
sequence shrinks by one. -/
theorem C8_pick_item_up (i : Nat) (g : Game) (objs : List GameObject) :
    (g.inventory.length ≥ 9 →
      (pick_item_up i g objs).2 = objs ∧
        (pick_item_up i g objs).1.inventory = g.inventory ∧
        (pick_item_up i g objs).1.messages =
          g.messages ++
            [("Cannot pickup " ++ (objs.getD i default).name ++ ", inventory is full!",
              Color.red)]) ∧
    (g.inventory.length < 9 →
      (pick_item_up i g objs).1.inventory = g.inventory ++ [objs.getD i default] ∧
        (i < objs.length → (pick_item_up i g objs).2.length = objs.length - 1)) := by
  constructor
  · intro hfull
    refine ⟨?_, ?_, ?_⟩ <;> simp [pick_item_up, hfull, addMsg]
  · intro hlt
    have hnot : ¬ g.inventory.length ≥ 9 := by omega
    refine ⟨by simp [pick_item_up, hnot, addMsg, swap_remove], ?_⟩
    intro hi
    simp only [pick_item_up, hnot, if_neg hnot, swap_remove]
    simp [List.length_dropLast, List.length_set]

-- Concrete data for C8 and C5.

def itemObj : GameObject :=
  { x := 1, y := 0, char := '!', color := Color.violet, name := "healing potion",
    blocks := false, is_alive := false, fighter := none, ai := none,
    item := some Item.heal }

def orcB : GameObject :=
  { x := 3, y := 3, char := 'o', color := Color.desaturatedGreen, name := "orc",
    blocks := true, is_alive := true,
    fighter := some { max_hp := 10, hp := 10, defense := 0, power := 3,
                      on_death := DeathCallback.monster },
    ai := some Ai.basic, item := none }

def fullInvGame : Game :=
  { map := [], messages := [], inventory := List.replicate 9 itemObj }

/-- C8 witness: with 9 items already held, picking up the item at world
index 1 changes nothing but the message log. -/
theorem C8_witness :
    (pick_item_up 1 fullInvGame [basePlayer, itemObj]).2 = [basePlayer, itemObj] ∧
      (pick_item_up 1 fullInvGame [basePlayer, itemObj]).1.inventory =
        fullInvGame.inventory ∧
      (pick_item_up 1 fullInvGame [basePlayer, itemObj]).1.messages =
        fullInvGame.messages ++
          [("Cannot pickup " ++
              (([basePlayer, itemObj] : List GameObject).getD 1 default).name ++
              ", inventory is full!", Color.red)] :=
  (C8_pick_item_up 1 fullInvGame [basePlayer, itemObj]).1 (by decide)

/-- C5 counterexample: the claim says every entity other than the removed
one keeps its index.  Removal is `swap_remove`: picking up the item at
index 1 of `[player, item, orc]` moves the orc from index 2 to index 1 —
it does not keep its index. -/
theorem C5_counterexample :
    (pick_item_up 1 emptyGame [basePlayer, itemObj, orcB]).2.getD 1 default = orcB ∧
      ([basePlayer, itemObj, orcB] : List GameObject).getD 2 default = orcB ∧
      ([basePlayer, itemObj, orcB] : List GameObject).getD 1 default ≠ orcB := by
  refine ⟨by decide, by decide, by decide⟩

/-- C5 (amended): a successful pickup of the entity at world index
`i ≠ 0` removes it by swap-remove: every entity at an index below `i`
keeps its index (in particular the player stays at index 0), entities
strictly between `i` and the last index keep their indices, and the
entity that was last is moved to index `i` (when `i` is not the last
index); the sequence shrinks by one. -/
theorem C5_amended (i : Nat) (g : Game) (objs : List GameObject)
    (hi0 : i ≠ 0) (hilen : i < objs.length) (hinv : g.inventory.length < 9) :
    (∀ j, j < i → (pick_item_up i g objs).2.getD j default = objs.getD j default) ∧
      (∀ j, i < j → j < objs.length - 1 →
        (pick_item_up i g objs).2.getD j default = objs.getD j default) ∧
      (i < objs.length - 1 →
        (pick_item_up i g objs).2.getD i default =
          objs.getD (objs.length - 1) default) ∧
      (pick_item_up i g objs).2.length = objs.length - 1 ∧
      (pick_item_up i g objs).2.getD 0 default = objs.getD 0 default := by
  have hnot : ¬ g.inventory.length ≥ 9 := by omega
  have hres : (pick_item_up i g objs).2 =
      (objs.set i (objs.getD (objs.length - 1) default)).dropLast := by
    simp [pick_item_up, hnot, swap_remove]
  refine ⟨?_, ?_, ?_, ?_, ?_⟩
  · intro j hj
    rw [hres, getD_dropLast_of_lt _ _ _ (by rw [List.length_set]; omega),
      getD_set_ne _ _ _ _ _ (by omega)]
  · intro j hij hj
    rw [hres, getD_dropLast_of_lt _ _ _ (by rw [List.length_set]; omega),
      getD_set_ne _ _ _ _ _ (by omega)]
  · intro hlast
    rw [hres, getD_dropLast_of_lt _ _ _ (by rw [List.length_set]; omega),
      getD_set_self _ _ _ _ hilen]
  · rw [hres, List.length_dropLast, List.length_set]
  · rw [hres, getD_dropLast_of_lt _ _ _ (by rw [List.length_set]; omega),
      getD_set_ne _ _ _ _ _ (by omega)]

/-- C5 witness: removing index 1 from a three-entity world keeps the
player at index 0, moves the last entity to index 1 and shrinks the
sequence to length 2. -/
theorem C5_witness :
    (pick_item_up 1 emptyGame [basePlayer, itemObj, orcB]).2.getD 1 default =
        ([basePlayer, itemObj, orcB] : List GameObject).getD 2 default ∧
      (pick_item_up 1 emptyGame [basePlayer, itemObj, orcB]).2.length = 2 ∧
      (pick_item_up 1 emptyGame [basePlayer, itemObj, orcB]).2.getD 0 default =
        ([basePlayer, itemObj, orcB] : List GameObject).getD 0 default := by
  have h := C5_amended 1 emptyGame [basePlayer, itemObj, orcB]
    (by decide) (by decide) (by decide)
  exact ⟨h.2.2.1 (by decide), h.2.2.2.1, h.2.2.2.2⟩

/-- `fn mut_two`: `assert!(first_index != second_index)` (modeled as the
`none` result), then `split_at_mut` at the larger index and return the
two disjoint views — the first component refers to `items[first_index]`,
the second to `items[second_index]`. -/
def mut_two {α : Type} [Inhabited α] (first_index second_index : Nat)
    (items : List α) : Option (α × α) :=
  if first_index = second_index then none
  else
    let split_at_index := max first_index second_index
    let first_slice := items.take split_at_index
    let second_slice := items.drop split_at_index
    if first_index < second_index then
      some (first_slice.getD first_index default, second_slice.getD 0 default)
    else
      some (second_slice.getD 0 default, first_slice.getD second_index default)

/-- C9: `mut_two` hits its assertion exactly when the two indices are
equal; for distinct in-bounds indices it returns the two (disjoint, since
the indices differ) elements, the first at `first_index` and the second
at `second_index`. -/
theorem C9_mut_two {α : Type} [Inhabited α] (first_index second_index : Nat)
    (items : List α) :
    (mut_two first_index second_index items = none ↔ first_index = second_index) ∧
      (first_index ≠ second_index → first_index < items.length →
        second_index < items.length →
        mut_two first_index second_index items =
          some (items.getD first_index default, items.getD second_index default)) := by
  constructor
  · constructor
    · intro h
      by_contra hne
      simp only [mut_two, if_neg hne] at h
      by_cases hlt : first_index < second_index <;> simp [hlt] at h
    · intro h
      simp [mut_two, h]
  · intro hne h1 h2
    simp only [mut_two, if_neg hne]
    by_cases hlt : first_index < second_index
    · rw [if_pos hlt, max_eq_right (le_of_lt hlt), getD_take_of_lt _ _ _ _ hlt,
        getD_drop_zero]
    · have hgt : second_index < first_index := by omega
      rw [if_neg hlt, max_eq_left (le_of_lt hgt), getD_take_of_lt _ _ _ _ hgt,
        getD_drop_zero]

/-- C9 witness: distinct in-bounds indices 0 and 2 of a three-element list
yield the elements at those indices. -/
theorem C9_witness :
    mut_two 0 2 [(10 : Nat), 20, 30] = some (10, 30) := by
  have h := (C9_mut_two 0 2 [(10 : Nat), 20, 30]).2 (by decide) (by decide) (by decide)
  exact h

/-- C6: `attack` computes damage = attacker power − defender defense; when
positive, it logs the attack message and applies exactly that amount via
`take_damage` (a defense-2, hp-30 fighter hit by power 5 ends at hp 27 as
long as it survives); when ≤ 0, it logs the distinct "no effect" message
and the defender is untouched — `take_damage` is not called. -/
theorem C6_attack (attacker target : GameObject) (fa fd : Fighter) (game : Game)
    (ha : attacker.fighter = some fa) (hd : target.fighter = some fd) :
    (fa.power - fd.defense > 0 →
      attacker.attack target game =
        target.take_damage (fa.power - fd.defense)
          (addMsg game
            (attacker.name ++ " attacks " ++ target.name ++ " for " ++
              toString (fa.power - fd.defense) ++ " hp.") Color.white)) ∧
    (fa.power - fd.defense > 0 → 0 < fd.hp - (fa.power - fd.defense) →
      (attacker.attack target game).1.fighter =
          some { fd with hp := fd.hp - (fa.power - fd.defense) } ∧
        (attacker.attack target game).2.messages =
          game.messages ++
            [(attacker.name ++ " attacks " ++ target.name ++ " for " ++
                toString (fa.power - fd.defense) ++ " hp.", Color.white)]) ∧
    (fa.power - fd.defense ≤ 0 →
      (attacker.attack target game).1 = target ∧
        (attacker.attack target game).2.messages =
          game.messages ++
            [(attacker.name ++ " attacks " ++ target.name ++ ", but it has no effect!",
              Color.white)]) := by
  refine ⟨?_, ?_, ?_⟩
  · intro h
    simp [GameObject.attack, ha, hd, h]
  · intro h hhp
    constructor
    · simp [GameObject.attack, GameObject.take_damage, ha, hd, h,
        show ¬ fd.hp - (fa.power - fd.defense) ≤ 0 from by omega]
    · simp [GameObject.attack, GameObject.take_damage, ha, hd, h, addMsg,
        show ¬ fd.hp - (fa.power - fd.defense) ≤ 0 from by omega]
  · intro h
    constructor
    · simp [GameObject.attack, ha, hd, show ¬ fa.power - fd.defense > 0 from by omega]
    · simp [GameObject.attack, ha, hd, addMsg,
        show ¬ fa.power - fd.defense > 0 from by omega]

/-- A troll-stats defender at full health with defense 2 (the C6 scenario
defender). -/
def defenderC6 : GameObject :=
  { x := 1, y := 0, char := 't', color := Color.darkerGreen, name := "troll",
    blocks := true, is_alive := true,
    fighter := some { max_hp := 30, hp := 30, defense := 2, power := 4,
                      on_death := DeathCallback.monster },
    ai := some Ai.basic, item := none }

/-- C6 witness: the player (power 5) attacking the defense-2, hp-30
defender deals exactly 3 damage, leaving hp 27, and logs the attack
message. -/
theorem C6_witness :
    (basePlayer.attack defenderC6 emptyGame).1.fighter =
        some { max_hp := 30, hp := 27, defense := 2, power := 4,
               on_death := DeathCallback.monster } ∧
      (basePlayer.attack defenderC6 emptyGame).2.messages =
        emptyGame.messages ++
          [(basePlayer.name ++ " attacks " ++ defenderC6.name ++ " for " ++
              toString ((5 : Int) - 2) ++ " hp.", Color.white)] := by
  have h := (C6_attack basePlayer defenderC6 playerFighter
      { max_hp := 30, hp := 30, defense := 2, power := 4,
        on_death := DeathCallback.monster }
      emptyGame rfl rfl).2.1 (by decide) (by decide)
  exact ⟨h.1, h.2⟩

/-- `fn cast_heal`: cancelled with a message at full health, otherwise a
message plus `heal(HEAL_AMOUNT)` on the player and UsedUp; a fighterless
player falls through to Cancelled.  The embedding returns the `UseResult`
along with the updated game and world sequence. -/
def cast_heal (game : Game) (game_objects : List GameObject) :
    UseResult × Game × List GameObject :=
  match (game_objects.getD PLAYER default).fighter with
  | some fighter =>
      if fighter.hp == fighter.max_hp then
        (UseResult.cancelled, addMsg game "You are already at full health." Color.red,
         game_objects)
      else
        (UseResult.usedUp, addMsg game "Your wounds start to feel better!" Color.lightViolet,
         game_objects.set PLAYER ((game_objects.getD PLAYER default).heal HEAL_AMOUNT))
  | none => (UseResult.cancelled, game, game_objects)

/-- C7: using a Heal item with the player at full health is Cancelled and
changes no entity; otherwise it is UsedUp and the player's hp becomes
`min (hp + 4) max_hp` — it rises by the fixed heal amount 4, capped at
max_hp. -/
theorem C7_cast_heal (g : Game) (objs : List GameObject) (f : Fighter)
    (hf : (objs.getD PLAYER default).fighter = some f) :
    (f.hp = f.max_hp →
      (cast_heal g objs).1 = UseResult.cancelled ∧ (cast_heal g objs).2.2 = objs) ∧
    (f.hp ≠ f.max_hp →
      (cast_heal g objs).1 = UseResult.usedUp ∧
        ((cast_heal g objs).2.2.getD PLAYER default).fighter =
          some { f with hp := min (f.hp + HEAL_AMOUNT) f.max_hp }) := by
  have hlen : 0 < objs.length := by
    rcases objs with _ | ⟨a, l⟩
    · simp [List.getD] at hf
    · simp
  constructor
  · intro h
    constructor <;> (simp only [cast_heal]; rw [hf]; simp [h])
  · intro h
    have hbeq : (f.hp == f.max_hp) = false := by
      simp [h]
    refine ⟨by simp only [cast_heal]; rw [hf]; simp [hbeq], ?_⟩
    have hmin : (if f.hp + HEAL_AMOUNT > f.max_hp then f.max_hp
        else f.hp + HEAL_AMOUNT) = min (f.hp + HEAL_AMOUNT) f.max_hp := by
      rcases le_or_lt (f.hp + HEAL_AMOUNT) f.max_hp with h1 | h1
      · rw [if_neg (by omega), min_eq_left h1]
      · rw [if_pos h1, min_eq_right (by omega)]
    simp only [PLAYER] at hf ⊢
    simp only [cast_heal, PLAYER]
    rw [hf]
    simp only [hbeq, Bool.false_eq_true, if_false]
    rw [getD_set_self _ _ _ _ hlen, GameObject.heal, hf]
    simp [hmin]

/-- The player at 10/30 hp. -/
def woundedPlayer : GameObject :=
  { basePlayer with fighter := some { playerFighter with hp := 10 } }

/-- C7 witness: at full health the Heal cast is Cancelled and the world is
unchanged; at 10/30 hp it is UsedUp and hp becomes 14. -/
theorem C7_witness :
    ((cast_heal emptyGame [basePlayer]).1 = UseResult.cancelled ∧
      (cast_heal emptyGame [basePlayer]).2.2 = [basePlayer]) ∧
    ((cast_heal emptyGame [woundedPlayer]).1 = UseResult.usedUp ∧
      ((cast_heal emptyGame [woundedPlayer]).2.2.getD PLAYER default).fighter =
        some { playerFighter with hp := 14 }) := by
  refine ⟨(C7_cast_heal emptyGame [basePlayer] playerFighter rfl).1 rfl, ?_⟩
  have h := (C7_cast_heal emptyGame [woundedPlayer]
      { playerFighter with hp := 10 } rfl).2 (by decide)
  exact ⟨h.1, h.2⟩

/-- The loop body of `closest_monster`: enumerate the remaining objects
(`id` is the index of the head), keep `(closest_enemy, closest_distance)`;
an object is considered when it is not the player, carries both Fighter
and AI, and is in FOV; it becomes the new best exactly when its distance
is strictly below the current best.  Distances are squared (see
`distance_sq`). -/
def closest_scan (fov : Int → Int → Bool) (player : GameObject) :
    Nat → List GameObject → Option Nat × Int → Option Nat × Int
  | _, [], acc => acc
  | id, g :: rest, (best, bestD) =>
      let acc :=
        if (id != 0) && g.fighter.isSome && g.ai.isSome && fov g.x g.y then
          if distance_sq player g < bestD then (some id, distance_sq player g)
          else (best, bestD)
        else (best, bestD)
      closest_scan fov player (id + 1) rest acc

/-- `fn closest_monster`: scan all objects starting from
`closest_distance = max_range + 1` (squared in the embedding). -/
def closest_monster (fov : Int → Int → Bool) (game_objects : List GameObject)
    (max_range : Int) : Option Nat :=
  (closest_scan fov (game_objects.getD PLAYER default) 0 game_objects
    (none, (max_range + 1) * (max_range + 1))).1

/-- Eligibility of index `j` for the closest-target search: not the
player, has Fighter and AI, and is visible. -/
def eligB (fov : Int → Int → Bool) (objs : List GameObject) (j : Nat) : Bool :=
  (j != 0) && (objs.getD j default).fighter.isSome && (objs.getD j default).ai.isSome &&
    fov (objs.getD j default).x (objs.getD j default).y

/-- Squared distance from the player (index 0) to the object at index `j`. -/
def dsq (objs : List GameObject) (j : Nat) : Int :=
  distance_sq (objs.getD PLAYER default) (objs.getD j default)

/-- Invariant of the `closest_monster` scan after the first `s` indices
have been processed. -/
def cmInv (fov : Int → Int → Bool) (objs : List GameObject) (B0 : Int) (s : Nat)
    (acc : Option Nat × Int) : Prop :=
  (∀ j, j < s → eligB fov objs j = true → acc.2 ≤ dsq objs j) ∧
  acc.2 ≤ B0 ∧
  (∀ i, acc.1 = some i → i < s ∧ i < objs.length ∧ eligB fov objs i = true ∧
    acc.2 = dsq objs i ∧ acc.2 < B0 ∧
    ∀ j, j < i → eligB fov objs j = true → acc.2 < dsq objs j) ∧
  (acc.1 = none → acc.2 = B0)

lemma closest_scan_inv (fov : Int → Int → Bool) (objs : List GameObject) (B0 : Int) :
    ∀ (ys : List GameObject) (s : Nat) (acc : Option Nat × Int),
      ys = objs.drop s → cmInv fov objs B0 s acc →
      cmInv fov objs B0 (s + ys.length)
        (closest_scan fov (objs.getD PLAYER default) s ys acc) := by
  intro ys
  induction ys with
  | nil =>
      intro s acc hys hinv
      simpa [closest_scan] using hinv
  | cons z rest ih =>
      intro s acc hys hinv
      obtain ⟨best, bestD⟩ := acc
      have hs : s < objs.length := by
        have hlen := congrArg List.length hys
        simp only [List.length_cons, List.length_drop] at hlen
        omega
      have hdz : objs.drop s = objs[s] :: objs.drop (s + 1) :=
        List.drop_eq_getElem_cons hs
      rw [hdz] at hys
      have hz : z = objs.getD s default := by
        have := (List.cons.injEq _ _ _ _).mp hys
        rw [this.1, List.getD_eq_getElem objs default hs]
      have hrest : rest = objs.drop (s + 1) :=
        ((List.cons.injEq _ _ _ _).mp hys).2
      subst hz
      have hlen2 : s + (objs.getD s default :: rest).length = (s + 1) + rest.length := by
        simp only [List.length_cons]
        omega
      rw [hlen2]
      simp only [closest_scan]
      rw [show ((s != 0) && (objs.getD s default).fighter.isSome &&
          (objs.getD s default).ai.isSome &&
          fov (objs.getD s default).x (objs.getD s default).y) = eligB fov objs s
        from rfl]
      rw [show distance_sq (objs.getD PLAYER default) (objs.getD s default) = dsq objs s
        from rfl]
      obtain ⟨h1, h2, h3, h4⟩ := hinv
      cases heq : eligB fov objs s with
      | false =>
          simp only [heq, Bool.false_eq_true, if_false]
          refine ih (s + 1) (best, bestD) hrest ⟨?_, h2, ?_, h4⟩
          · intro j hj he
            rcases Nat.lt_succ_iff_lt_or_eq.mp hj with hj' | hj'
            · exact h1 j hj' he
            · subst hj'
              rw [heq] at he
              cases he
          · intro i hi
            obtain ⟨a1, a2, a3, a4, a5, a6⟩ := h3 i hi
            exact ⟨by omega, a2, a3, a4, a5, a6⟩
      | true =>
          simp only [heq, if_true]
          by_cases hdlt : dsq objs s < bestD
          · simp only [if_pos hdlt]
            refine ih (s + 1) (some s, dsq objs s) hrest ⟨?_, by omega, ?_, ?_⟩
            · intro j hj he
              rcases Nat.lt_succ_iff_lt_or_eq.mp hj with hj' | hj'
              · have := h1 j hj' he
                simp only
                omega
              · subst hj'
                simp only
                omega
            · intro i hi
              have hi' : i = s := by
                have := hi
                simp only [Option.some.injEq] at this
                omega
              subst hi'
              refine ⟨by omega, hs, heq, rfl, by simp only; omega, ?_⟩
              intro j hj he
              have := h1 j hj he
              simp only
              omega
            · intro hcon
              cases hcon
          · simp only [if_neg hdlt]
            refine ih (s + 1) (best, bestD) hrest ⟨?_, h2, ?_, h4⟩
            · intro j hj he
              rcases Nat.lt_succ_iff_lt_or_eq.mp hj with hj' | hj'
              · exact h1 j hj' he
              · subst hj'
                simp only
                omega
            · intro i hi
              obtain ⟨a1, a2, a3, a4, a5, a6⟩ := h3 i hi
              exact ⟨by omega, a2, a3, a4, a5, a6⟩

/-- C4 (amended): whenever `closest_monster` with bound `max_range`
returns an entity index, that entity is never the player, carries both
Fighter and AI, is visible, and lies at distance-to-player strictly less
than `max_range + 1` (squared distances throughout; it may exceed
`max_range` itself by a fraction — the strict comparison is against the
`max_range + 1` starting bound); among eligible entities its distance is
minimal and every earlier-scanned eligible entity is strictly farther
(strict less-than keeps the earliest at a tie). -/
theorem C4_amended (fov : Int → Int → Bool) (objs : List GameObject)
    (max_range : Int) (i : Nat)
    (h : closest_monster fov objs max_range = some i) :
    i ≠ 0 ∧ i < objs.length ∧
      (objs.getD i default).fighter.isSome = true ∧
      (objs.getD i default).ai.isSome = true ∧
      fov (objs.getD i default).x (objs.getD i default).y = true ∧
      dsq objs i < (max_range + 1) * (max_range + 1) ∧
      (∀ j, j < objs.length → eligB fov objs j = true → dsq objs i ≤ dsq objs j) ∧
      (∀ j, j < i → eligB fov objs j = true → dsq objs i < dsq objs j) := by
  have hinv0 : cmInv fov objs ((max_range + 1) * (max_range + 1)) 0
      (none, (max_range + 1) * (max_range + 1)) := by
    refine ⟨?_, le_refl _, ?_, fun _ => rfl⟩
    · intro j hj
      omega
    · intro i hi
      cases hi
  have hmain := closest_scan_inv fov objs ((max_range + 1) * (max_range + 1))
    objs 0 (none, (max_range + 1) * (max_range + 1)) (by simp) hinv0
  simp only [closest_monster] at h
  obtain ⟨m1, m2, m3, m4⟩ := hmain
  obtain ⟨a1, a2, a3, a4, a5, a6⟩ := m3 i h
  have helig := a3
  simp only [eligB, Bool.and_eq_true, bne_iff_ne, ne_eq] at helig
  refine ⟨helig.1.1.1, a2, helig.1.1.2, helig.1.2, helig.2, by omega, ?_, ?_⟩
  · intro j hj he
    have := m1 j (by omega) he
    omega
  · intro j hj he
    have := a6 j hj he
    omega

-- Concrete data for C4: a monster at (5, 1), squared distance 26 from the
-- player, with max_range = 5.

def monsterC4 : GameObject :=
  { x := 5, y := 1, char := 'o', color := Color.desaturatedGreen, name := "orc",
    blocks := true, is_alive := true,
    fighter := some { max_hp := 10, hp := 10, defense := 0, power := 3,
                      on_death := DeathCallback.monster },
    ai := some Ai.basic, item := none }

/-- C4 counterexample: the claim says the returned entity lies at
distance-to-player not exceeding `max_range`.  With the player at (0,0),
a visible monster at (5,1) and `max_range = 5`, the search returns that
monster although its squared distance 26 exceeds `max_range² = 25` — its
Euclidean distance √26 ≈ 5.10 exceeds the bound 5 (the code only requires
`distance < max_range + 1`). -/
theorem C4_counterexample :
    closest_monster (fun _ _ => true) [basePlayer, monsterC4] 5 = some 1 ∧
      dsq [basePlayer, monsterC4] 1 = 26 ∧
      (5 : Int) * 5 < 26 := by
  refine ⟨rfl, rfl, by decide⟩

/-- C4 witness: applying the amended theorem to the concrete scene — the
returned index 1 is not the player, has Fighter and AI, is visible, lies
strictly inside the squared `max_range + 1` bound, and is at minimal
distance among eligible entities. -/
theorem C4_witness :
    (1 : Nat) ≠ 0 ∧ 1 < ([basePlayer, monsterC4] : List GameObject).length ∧
      (([basePlayer, monsterC4] : List GameObject).getD 1 default).fighter.isSome = true ∧
      (([basePlayer, monsterC4] : List GameObject).getD 1 default).ai.isSome = true ∧
      (fun (_ _ : Int) => true)
          (([basePlayer, monsterC4] : List GameObject).getD 1 default).x
          (([basePlayer, monsterC4] : List GameObject).getD 1 default).y = true ∧
      dsq [basePlayer, monsterC4] 1 < ((5 : Int) + 1) * (5 + 1) ∧
      (∀ j, j < ([basePlayer, monsterC4] : List GameObject).length →
        eligB (fun _ _ => true) [basePlayer, monsterC4] j = true →
        dsq [basePlayer, monsterC4] 1 ≤ dsq [basePlayer, monsterC4] j) ∧
      (∀ j, j < 1 → eligB (fun _ _ => true) [basePlayer, monsterC4] j = true →
        dsq [basePlayer, monsterC4] 1 < dsq [basePlayer, monsterC4] j) :=
  C4_amended (fun _ _ => true) [basePlayer, monsterC4] 5 1 rfl

/-- `fn ai_confused`: while `num_turns >= 0`, make one random step (the
two `gen_range(-1, 2)` draws are the explicit `rdx`, `rdy` parameters) and
return `Confused` with the counter decremented; once the counter is
negative, log the "no longer confused" message and return the boxed
previous AI. -/
def ai_confused (monster_id : Nat) (game : Game) (game_objects : List GameObject)
    (previous_ai : Ai) (num_turns : Int) (rdx rdy : Int) :
    Ai × Game × List GameObject :=
  if num_turns ≥ 0 then
    (Ai.confused previous_ai (num_turns - 1), game,
     move_game_object_by monster_id rdx rdy game.map game_objects)
  else
    (previous_ai,
     addMsg game ((game_objects.getD monster_id default).name ++ " is no longer confused")
       Color.white,
     game_objects)

/-- The AI value returned by `ai_confused` is exactly `step_ai` of the
confused state, whatever the random draws and world state. -/
lemma ai_confused_fst (monster_id : Nat) (game : Game)
    (game_objects : List GameObject) (previous_ai : Ai) (num_turns : Int)
    (rdx rdy : Int) :
    (ai_confused monster_id game game_objects previous_ai num_turns rdx rdy).1 =
      step_ai (Ai.confused previous_ai num_turns) := by
  simp only [ai_confused, step_ai]
  by_cases h : num_turns ≥ 0 <;> simp [h]

/-- `fn cast_lightning`: strike the closest visible monster within
`LIGHTNING_RANGE` for `LIGHTNING_DAMAGE` (message first, then
`take_damage`); Cancelled with a message when there is none. -/
def cast_lightning (fov : Int → Int → Bool) (game : Game)
    (game_objects : List GameObject) : UseResult × Game × List GameObject :=
  match closest_monster fov game_objects LIGHTNING_RANGE with
  | some monster_id =>
      let g := addMsg game
        ("A lightning bolt strikes the " ++ (game_objects.getD monster_id default).name ++
          " and damaged it " ++ toString LIGHTNING_DAMAGE ++ " hit points!")
        Color.lightBlue
      let r := (game_objects.getD monster_id default).take_damage LIGHTNING_DAMAGE g
      (UseResult.usedUp, r.2, game_objects.set monster_id r.1)
  | none =>
      (UseResult.cancelled, addMsg game "There is no enemy to strike." Color.red,
       game_objects)

/-- `fn cast_confusion`: wrap the closest visible monster's AI (taken out,
defaulting to Basic) in `Confused` with `CONFUSE_TURN_COUNT` turns;
Cancelled with a message when there is none. -/
def cast_confusion (fov : Int → Int → Bool) (game : Game)
    (game_objects : List GameObject) : UseResult × Game × List GameObject :=
  match closest_monster fov game_objects CONFUSION_RANGE with
  | some monster_id =>
      let old_ai := (game_objects.getD monster_id default).ai.getD Ai.basic
      let objs := game_objects.set monster_id
        { game_objects.getD monster_id default with
          ai := some (Ai.confused old_ai CONFUSE_TURN_COUNT) }
      (UseResult.usedUp,
       addMsg game ((objs.getD monster_id default).name ++ " is confused !") Color.white,
       objs)
  | none =>
      (UseResult.cancelled, addMsg game "There is no enemy to strike." Color.red,
       game_objects)

/-- `fn use_item`: dispatch on the item tag of inventory slot
`inventory_id`; `UsedUp` removes the slot (`Vec::remove`, shifting later
slots left), `Cancelled` logs "Cancelled"; a tagless object logs that it
cannot be used. -/
def use_item (fov : Int → Int → Bool) (inventory_id : Nat) (game : Game)
    (game_objects : List GameObject) : Game × List GameObject :=
  match (game.inventory.getD inventory_id default).item with
  | some item =>
      let r :=
        match item with
        | Item.heal => cast_heal game game_objects
        | Item.scrollOfLightning => cast_lightning fov game game_objects
        | Item.scrollOfConfusion => cast_confusion fov game game_objects
      match r.1 with
      | UseResult.usedUp =>
          ({ r.2.1 with inventory := r.2.1.inventory.eraseIdx inventory_id }, r.2.2)
      | UseResult.cancelled => (addMsg r.2.1 "Cancelled" Color.white, r.2.2)
  | none =>
      (addMsg game
        ("The " ++ (game.inventory.getD inventory_id default).name ++ " cannot be used")
        Color.white,
       game_objects)

/-- `fn player_move_or_attack`: if a fighter-bearing object stands at the
destination, attack it (via the `mut_two` split borrow — `attack` mutates
only the target and the game); otherwise delegate to
`move_game_object_by`. -/
def player_move_or_attack (dx dy : Int) (game : Game)
    (game_objects : List GameObject) : Game × List GameObject :=
  let x := (game_objects.getD PLAYER default).x + dx
  let y := (game_objects.getD PLAYER default).y + dy
  match game_objects.findIdx? (fun g => g.fighter.isSome && (g.x == x && g.y == y)) with
  | some target_id =>
      let r := (game_objects.getD PLAYER default).attack
        (game_objects.getD target_id default) game
      (r.2, game_objects.set target_id r.1)
  | none => (game, move_game_object_by PLAYER dx dy game.map game_objects)

/-- The discrete inputs `handle_keys` dispatches on.  The inventory menu
is external UI (spec §6): its returned selection is carried as the input
payload. -/
inductive KeyInput where
  | up
  | down
  | left
  | right
  | pickUp
  | inventoryUse (selection : Option Nat)
  | enterAlt
  | escape
  | other
deriving DecidableEq, Repr

/-- `fn handle_keys`: arrow keys move or attack and take a turn (only
while the player is alive); "g" picks up an item at the player's tile and
does NOT take a turn; "i" opens the inventory menu (external UI, selection
is the payload; the source returns a selection only for a non-empty
inventory) and — successful use or not — does NOT take a turn; Alt+Enter
toggles fullscreen without a turn; Escape exits; everything else is a
no-op turn. -/
def handle_keys (fov : Int → Int → Bool) (k : KeyInput) (game : Game)
    (game_objects : List GameObject) : PlayerAction × Game × List GameObject :=
  let player_alive := (game_objects.getD PLAYER default).is_alive
  match k, player_alive with
  | KeyInput.up, true =>
      let r := player_move_or_attack 0 (-1) game game_objects
      (PlayerAction.tookTurn, r.1, r.2)
  | KeyInput.down, true =>
      let r := player_move_or_attack 0 1 game game_objects
      (PlayerAction.tookTurn, r.1, r.2)
  | KeyInput.left, true =>
      let r := player_move_or_attack (-1) 0 game game_objects
      (PlayerAction.tookTurn, r.1, r.2)
  | KeyInput.pickUp, true =>
      match game_objects.findIdx? (fun g =>
          (g.x == (game_objects.getD PLAYER default).x &&
            g.y == (game_objects.getD PLAYER default).y) && g.item.isSome) with
      | some item_id =>
          let r := pick_item_up item_id game game_objects
          (PlayerAction.didntTakeTurn, r.1, r.2)
      | none => (PlayerAction.didntTakeTurn, game, game_objects)
  | KeyInput.inventoryUse sel, true =>
      match (if game.inventory.length > 0 then sel else none) with
      | some inventory_index =>
          let r := use_item fov inventory_index game game_objects
          (PlayerAction.didntTakeTurn, r.1, r.2)
      | none => (PlayerAction.didntTakeTurn, game, game_objects)
  | KeyInput.right, true =>
      let r := player_move_or_attack 1 0 game game_objects
      (PlayerAction.tookTurn, r.1, r.2)
  | KeyInput.enterAlt, _ => (PlayerAction.didntTakeTurn, game, game_objects)
  | KeyInput.escape, _ => (PlayerAction.exitGame, game, game_objects)
  | _, _ => (PlayerAction.didntTakeTurn, game, game_objects)

/-- The main-loop guard for the AI phase:
`game_objects[PLAYER].is_alive && player_action != PlayerAction::DidntTakeTurn`. -/
def ai_phase_runs (game_objects : List GameObject) (player_action : PlayerAction) : Bool :=
  (game_objects.getD PLAYER default).is_alive &&
    !(player_action == PlayerAction.didntTakeTurn)

/-- A game holding one healing potion in inventory (C3 scene). -/
def gameC3 : Game := { map := [], messages := [], inventory := [itemObj] }

/-- C3 counterexample: the claim says `handle_keys` returns `TookTurn`
for a successful inventory item use.  With a wounded player (10/30 hp)
using the healing potion in slot 0, the use succeeds — the potion is
consumed (inventory becomes empty) and hp rises to 14 — yet `handle_keys`
returns `DidntTakeTurn`, so the AI phase does not run. -/
theorem C3_counterexample :
    (handle_keys (fun _ _ => true) (KeyInput.inventoryUse (some 0)) gameC3
        [woundedPlayer]).1 = PlayerAction.didntTakeTurn ∧
      (handle_keys (fun _ _ => true) (KeyInput.inventoryUse (some 0)) gameC3
        [woundedPlayer]).2.1.inventory = [] ∧
      ((handle_keys (fun _ _ => true) (KeyInput.inventoryUse (some 0)) gameC3
        [woundedPlayer]).2.2.getD PLAYER default).fighter =
          some { playerFighter with hp := 14 } ∧
      ai_phase_runs [woundedPlayer] PlayerAction.didntTakeTurn = false := by
  refine ⟨rfl, rfl, rfl, rfl⟩

/-- C3 (amended): an inventory item use — successful or not — is
classified as NOT turn-consuming: `handle_keys` returns `DidntTakeTurn`
for every inventory input, so the AI phase never runs after an item use;
and the AI phase runs exactly when the player is alive and the returned
action is not `DidntTakeTurn`. -/
theorem C3_amended (fov : Int → Int → Bool) (sel : Option Nat) (g : Game)
    (objs : List GameObject) (a : PlayerAction) :
    (handle_keys fov (KeyInput.inventoryUse sel) g objs).1 =
        PlayerAction.didntTakeTurn ∧
      (ai_phase_runs objs a = true ↔
        (objs.getD PLAYER default).is_alive = true ∧
          a ≠ PlayerAction.didntTakeTurn) := by
  constructor
  · simp only [handle_keys]
    cases halive : (objs.getD PLAYER default).is_alive
    · rfl
    · cases hsel : (if g.inventory.length > 0 then sel else none) <;> simp [hsel]
  · simp only [ai_phase_runs, Bool.and_eq_true, Bool.not_eq_true',
      beq_eq_false_iff_ne, ne_eq]

/-- C3 witness: the amended theorem at the concrete healing scene and a
`TookTurn` action. -/
theorem C3_witness :
    (handle_keys (fun _ _ => true) (KeyInput.inventoryUse (some 0)) gameC3
        [woundedPlayer]).1 = PlayerAction.didntTakeTurn ∧
      (ai_phase_runs [woundedPlayer] PlayerAction.tookTurn = true ↔
        (([woundedPlayer] : List GameObject).getD PLAYER default).is_alive = true ∧
          PlayerAction.tookTurn ≠ PlayerAction.didntTakeTurn) :=
  C3_amended (fun _ _ => true) (some 0) gameC3 [woundedPlayer] PlayerAction.tookTurn

end RustRogue
